import Mathlib

/-!
Verification development for the resume-analysis pipeline in `src/src/App.jsx`.

The JavaScript source is shallowly embedded as follows:
* JS strings are `List Char`; JS string `length` is `List.length`.
* JS numbers arising in the metrics engine are modelled exactly by `ℚ`
  (the values involved are small integer ratios); `Math.round` is
  `jsRound`, i.e. `⌊x + 1/2⌋`, which is JS round-half-toward-plus-infinity.
* `String.prototype.split(/re+/)` for a character class `re` is `splitRuns`:
  split on maximal runs of matching characters, keeping empty boundary
  segments exactly as JS does (the source then filters out length-0 pieces).
* The quantifier regex scan of `text.match(/(\d+%|\$\d+|\d+k|\d+m|\d+\+)/gi)`
  is `countQuant`, a left-to-right scan with the regex alternation order,
  written with an explicit fuel argument (`fuel = length` always suffices,
  since every step consumes at least one character).
* The code-fence cleanup `textResponse.replace(/(three backticks)json|(three
  backticks)/g, '').trim()` is `cleanResponse = jsTrim ∘ replaceFences`;
  `replaceFences` is the same left-to-right scan with alternation order.
* Promise-based results of the remote client are `CallOutcome`: a JS promise
  either rejects or resolves, and a resolved `undefined` is `resolved none`.
  `JSON.parse` is an external platform function and is a parameter `parse`;
  the client applies it to the cleaned response and returns whatever it
  produces, with no field validation (as in the source).
* The orchestrator `handleAnalyze` is modelled as a pure description of the
  one submission: whether the length-validation alert fired, which stats were
  computed, and which generator was selected (`API_KEY` truthiness, i.e.
  nonemptiness of the configured credential string).
-/

/-- The backtick character (code 96), written via `Char.ofNat`. -/
def btk : Char := Char.ofNat 96

/-- The three-backtick code-fence marker matched by the cleanup regex. -/
def fenceM : List Char := [btk, btk, btk]

/-- The fence-plus-language marker, three backticks followed by "json". -/
def fenceJsonM : List Char := [btk, btk, btk, 'j', 's', 'o', 'n']

/-- Whitespace class used for the JS regex `\s` and for `trim` (ASCII part;
the additional Unicode space characters are not needed by the claims and are
omitted from the model). -/
def isJsSpace (c : Char) : Bool :=
  c = ' ' || c = '\t' || c = '\n' || c = '\r' || c = '\x0b' || c = '\x0c'

/-- The sentence-terminator class `[.!?]` of the source's sentence split. -/
def isSentencePunct (c : Char) : Bool :=
  c = '.' || c = '!' || c = '?'

/-- JS `s.split(/p+/)` for a character class `p`: split on maximal nonempty
runs of `p`-characters, keeping empty boundary segments (JS produces a
leading `""` for a leading run and a trailing `""` for a trailing run). -/
def splitRuns (p : Char → Bool) : List Char → List (List Char)
  | [] => [[]]
  | c :: cs =>
    if p c then
      match cs with
      | [] => [[], []]
      | d :: _ =>
        if p d then splitRuns p cs
        else [] :: splitRuns p cs
    else
      match splitRuns p cs with
      | [] => [[c]]
      | seg :: rest => (c :: seg) :: rest

/-- `text.split(/\s+/).filter(w => w.length > 0)` from `calculateStats`. -/
def wordsOf (t : List Char) : List (List Char) :=
  (splitRuns isJsSpace t).filter (fun w => decide (0 < w.length))

/-- `text.split(/[.!?]+/).filter(s => s.length > 0)` from `calculateStats`. -/
def sentencesOf (t : List Char) : List (List Char) :=
  (splitRuns isSentencePunct t).filter (fun s => decide (0 < s.length))

/-- Number of sentence segments surviving the length filter. -/
def sentCountOf (t : List Char) : Nat :=
  (sentencesOf t).length

/-- Characters that can terminate a quantifier match: `%`, `k`, `m` (the
regex has the `i` flag, so also `K`, `M`) and `+`. -/
def isQuantTail (c : Char) : Bool :=
  c = '%' || c = 'k' || c = 'K' || c = 'm' || c = 'M' || c = '+'

/-- Fuelled left-to-right scan counting the non-overlapping matches of
`/(\d+%|\$\d+|\d+k|\d+m|\d+\+)/gi`.  At each position the engine first tries
the digit-run alternatives (a maximal digit run must be followed by a
quantifier tail character) and the `\$\d+` alternative; on a match it
continues after the match, otherwise it advances one character.  Because the
tail characters are not digits, backtracking inside `\d+` can never succeed,
so the maximal-run check is exact. -/
def countQuantF : Nat → List Char → Nat
  | 0, _ => 0
  | Nat.succ _, [] => 0
  | Nat.succ fuel, c :: cs =>
    if c = '$' then
      match cs with
      | [] => 0
      | d :: _ =>
        if d.isDigit then Nat.succ (countQuantF fuel (cs.dropWhile Char.isDigit))
        else countQuantF fuel cs
    else if c.isDigit then
      match cs.dropWhile Char.isDigit with
      | [] => 0
      | t :: rest =>
        if isQuantTail t then Nat.succ (countQuantF fuel rest)
        else countQuantF fuel cs
    else countQuantF fuel cs

/-- `(text.match(/(\d+%|\$\d+|\d+k|\d+m|\d+\+)/gi) || []).length`. -/
def countQuant (s : List Char) : Nat :=
  countQuantF s.length s

/-- The fixed strong-verb vocabulary of `calculateStats`. -/
def strongVerbs : List (List Char) :=
  [String.toList "spearheaded", String.toList "orchestrated",
   String.toList "developed", String.toList "engineered",
   String.toList "implemented", String.toList "generated",
   String.toList "increased", String.toList "reduced",
   String.toList "launched"]

/-- The fixed weak-verb vocabulary of `calculateStats`. -/
def weakVerbs : List (List Char) :=
  [String.toList "helped", String.toList "worked",
   String.toList "responsible", String.toList "assisted",
   String.toList "participated"]

/-- `w.toLowerCase()` on a token (ASCII lowering; the verb lists are ASCII). -/
def lowerTok (w : List Char) : List Char :=
  w.map Char.toLower

/-- The `words.forEach` loop of `calculateStats`: fold over the word tokens,
incrementing `strongCount` when the lowercased token is `includes`-equal to a
strong verb and `weakCount` likewise for weak verbs. -/
def verbCounts (ws : List (List Char)) : Nat × Nat :=
  ws.foldl
    (fun acc w =>
      (acc.1 + (if strongVerbs.contains (lowerTok w) then 1 else 0),
       acc.2 + (if weakVerbs.contains (lowerTok w) then 1 else 0)))
    (0, 0)

/-- JS `Math.round`: round half toward positive infinity. -/
def jsRound (x : ℚ) : ℤ :=
  ⌊x + 1 / 2⌋

/-- The denominator `(sentences.length || 1)` used by the impact score and
the average sentence length: `0` is falsy in JS, so a zero sentence count is
replaced by `1`. -/
def sDenOf (t : List Char) : Nat :=
  if sentCountOf t = 0 then 1 else sentCountOf t

/-- `Math.min(100, Math.round((quantifiers.length / (sentences.length || 1)) * 100 * 1.5))`. -/
def impactScoreOf (t : List Char) : ℤ :=
  min 100 (jsRound ((countQuant t : ℚ) / (sDenOf t : ℚ) * 100 * 1.5))

/-- `Math.min(100, Math.round((strongCount / (strongCount + weakCount + 1)) * 100))`. -/
def verbScoreOf (t : List Char) : ℤ :=
  min 100 (jsRound (((verbCounts (wordsOf t)).1 : ℚ) /
    (((verbCounts (wordsOf t)).1 : ℚ) + ((verbCounts (wordsOf t)).2 : ℚ) + 1) * 100))

/-- `const avgSentenceLength = words.length / (sentences.length || 1)`. -/
def avgOf (t : List Char) : ℚ :=
  ((wordsOf t).length : ℚ) / (sDenOf t : ℚ)

/-- `avgSentenceLength > 25 ? 40 : avgSentenceLength > 15 ? 100 : 80`. -/
def brevityScoreOf (t : List Char) : ℤ :=
  if avgOf t > 25 then 40 else if avgOf t > 15 then 100 else 80

/-- The `LocalMetrics` record returned by `calculateStats`. -/
structure LocalMetrics where
  wordCount : Nat
  impactScore : ℤ
  verbScore : ℤ
  brevityScore : ℤ
deriving DecidableEq, Repr

/-- `calculateStats` from the source: `null` on empty text (the only falsy
string), otherwise the four metrics. -/
def calculateStats (t : List Char) : Option LocalMetrics :=
  if t = [] then none
  else some
    { wordCount := (wordsOf t).length
      impactScore := impactScoreOf t
      verbScore := verbScoreOf t
      brevityScore := brevityScoreOf t }

/-- Fuelled left-to-right scan of the global replace
`textResponse.replace(/(fence)json|(fence)/g, '')` where `fence` is three
backticks: at each position try the marker-plus-json alternative first, then
the bare marker, deleting a match and continuing after it; otherwise keep the
character and advance.  `fuel = length` always suffices since each step
consumes at least one character. -/
def replF : Nat → List Char → List Char
  | 0, s => s
  | Nat.succ _, [] => []
  | Nat.succ fuel, c :: cs =>
    if fenceJsonM.isPrefixOf (c :: cs) then replF fuel ((c :: cs).drop 7)
    else if fenceM.isPrefixOf (c :: cs) then replF fuel ((c :: cs).drop 3)
    else c :: replF fuel cs

/-- The fence-marker removal step of `realGeminiAnalysis`. -/
def replaceFences (s : List Char) : List Char :=
  replF s.length s

/-- Whether a string contains a three-backtick code-fence marker anywhere. -/
def containsFence : List Char → Bool
  | [] => false
  | c :: cs => fenceM.isPrefixOf (c :: cs) || containsFence cs

/-- JS `String.prototype.trim()`: drop whitespace from both ends. -/
def jsTrim (s : List Char) : List Char :=
  ((s.dropWhile isJsSpace).reverse.dropWhile isJsSpace).reverse

/-- `textResponse.replace(/(fence)json|(fence)/g, '').trim()`: the cleanup
applied by the remote client before parsing. -/
def cleanResponse (s : List Char) : List Char :=
  jsTrim (replaceFences s)

/-- A payload wrapped tightly in leading/trailing code-fence markers. -/
def wrapFence (s : List Char) : List Char :=
  fenceJsonM ++ s ++ fenceM

/-- A payload wrapped in code-fence markers on their own lines. -/
def wrapFenceNl (s : List Char) : List Char :=
  fenceJsonM ++ '\n' :: s ++ '\n' :: fenceM

/-- Minimal model of parsed JSON values, enough to talk about objects and
their field names. -/
inductive Json where
  | jnull : Json
  | jbool : Bool → Json
  | jnum : Int → Json
  | jstr : List Char → Json
  | jarr : List Json → Json
  | jobj : List (List Char × Json) → Json

/-- Whether a parsed value is an object carrying the given field name. -/
def Json.hasField : Json → List Char → Bool
  | .jobj fs, k => fs.any (fun f => f.1 == k)
  | _, _ => false

/-- The required `AnalysisResult` fields named by the spec's output shape. -/
def requiredFieldsPresent (j : Json) : Bool :=
  j.hasField (String.toList "score") && j.hasField (String.toList "summary") &&
  j.hasField (String.toList "bulletPoints") &&
  j.hasField (String.toList "missingKeywords") &&
  j.hasField (String.toList "softSkills")

/-- How a JS promise-returning call ends: it either rejects, or resolves with
a value (`resolved none` is resolving with `undefined`). -/
inductive CallOutcome (α : Type) where
  | resolved : Option α → CallOutcome α
  | rejected : CallOutcome α

/-- Outcome of the external model round trip: the awaited chain either throws
(network/API error) or yields a response text. -/
inductive RemoteResponse where
  | apiFailure : RemoteResponse
  | success : List Char → RemoteResponse

/-- `realGeminiAnalysis` from the source, as a function of the external round
trip's outcome and of the platform `JSON.parse` (parameter `parse`; `none`
models a parse throw).  The entire body is inside `try`; the `catch` logs,
alerts, and falls off the end of the function, so the promise RESOLVES with
`undefined` on any error.  A successfully parsed value is returned as-is with
no shape validation. -/
def realGeminiAnalysis {α : Type} (parse : List Char → Option α) :
    RemoteResponse → CallOutcome α
  | .apiFailure => .resolved none
  | .success body =>
    match parse (cleanResponse body) with
    | none => .resolved none
    | some v => .resolved (some v)

/-- A before/after bullet-point rewrite from the result schema. -/
structure BulletPoint where
  original : List Char
  improved : List Char
deriving DecidableEq, Repr

/-- The `AnalysisResult` shape produced by the mock generator. -/
structure AnalysisResultM where
  summary : List Char
  bulletPoints : List BulletPoint
  missingKeywords : List (List Char)
  softSkills : List (List Char)
  score : Int
deriving DecidableEq, Repr

/-- The missing-keyword set the mock generator returns when a job description
is present. -/
def mockKeywordsWithJob : List (List Char) :=
  [String.toList "Kubernetes", String.toList "CI/CD", String.toList "System Design"]

/-- The missing-keyword set the mock generator returns when the job
description is empty. -/
def mockKeywordsNoJob : List (List Char) :=
  [String.toList "Leadership", String.toList "Optimization"]

/-- The fixed latency in milliseconds of the mock generator's `setTimeout`. -/
def mockDelayMs : Nat := 1500

/-- `mockAIAnalysis` from the source: after the fixed delay it resolves with
this value.  The only data dependence is the truthiness of `jobDesc` (a JS
string is truthy exactly when nonempty); `text` is ignored. -/
def mockAIAnalysis (text jobDesc : List Char) : AnalysisResultM :=
  { summary := String.toList
      ("This candidate shows strong technical potential but lacks quantitative evidence. " ++
       "The structure is ATS-friendly, but the language is too passive. (MOCK DATA - Add API Key to see real results)")
    bulletPoints :=
      [{ original := String.toList "Worked on a React project for a client."
         improved := String.toList
           "Architected a scalable React application for a Fortune 500 client, reducing page load time by 40%." },
       { original := String.toList "Responsible for managing a team."
         improved := String.toList
           "Spearheaded a cross-functional team of 10 engineers, delivering the Q4 roadmap 2 weeks ahead of schedule." }]
    missingKeywords := if jobDesc ≠ [] then mockKeywordsWithJob else mockKeywordsNoJob
    softSkills := [String.toList "Communication", String.toList "Problem Solving"]
    score := 72 }

/-- Which generator the orchestrator invokes. -/
inductive Generator where
  | remote : Generator
  | mock : Generator
deriving DecidableEq, Repr

/-- Observable outcome of one `handleAnalyze` submission: whether the length
validation alert fired and stopped the pipeline, which local stats were
computed, and which generator was selected. -/
structure AnalyzeOutcome where
  validationAlert : Bool
  stats : Option LocalMetrics
  generator : Option Generator
deriving Repr

/-- `if (API_KEY)` — a JS string is truthy exactly when it is nonempty; the
credential is read once at process start (`import.meta.env` or `""`). -/
def chooseGenerator (apiKey : List Char) : Generator :=
  if apiKey ≠ [] then Generator.remote else Generator.mock

/-- `handleAnalyze` from the source: below 50 characters it alerts and
returns before computing stats or touching either generator; otherwise it
computes `calculateStats` and awaits the generator selected by `API_KEY`. -/
def handleAnalyze (apiKey resumeText jobDesc : List Char) : AnalyzeOutcome :=
  if resumeText.length < 50 then
    { validationAlert := true, stats := none, generator := none }
  else
    { validationAlert := false
      stats := calculateStats resumeText
      generator := some (chooseGenerator apiKey) }

/-- Modelled from the spec: the brevity mapping of section 4.1 — strictly
above 25 average words per sentence scores 40, strictly above 15 scores 100,
otherwise 80. -/
def brevitySpecMap (a : ℚ) : ℤ :=
  if a > 25 then 40 else if a > 15 then 100 else 80

/-- Modelled from the spec: `avgSentenceLength = wordCount / max(sentenceCount, 1)`. -/
def specAvg (t : List Char) : ℚ :=
  ((wordsOf t).length : ℚ) / ((max (sentCountOf t) 1 : Nat) : ℚ)

/-! ### General helper lemmas -/

theorem jsRound_nonneg (x : ℚ) (h : 0 ≤ x) : 0 ≤ jsRound x := by
  unfold jsRound
  rw [Int.le_floor]
  push_cast
  linarith

theorem impactScoreOf_nonneg (t : List Char) : 0 ≤ impactScoreOf t := by
  unfold impactScoreOf
  refine le_min (by norm_num) (jsRound_nonneg _ ?_)
  positivity

theorem impactScoreOf_le (t : List Char) : impactScoreOf t ≤ 100 :=
  min_le_left _ _

theorem verbScoreOf_nonneg (t : List Char) : 0 ≤ verbScoreOf t := by
  unfold verbScoreOf
  refine le_min (by norm_num) (jsRound_nonneg _ ?_)
  positivity

theorem verbScoreOf_le (t : List Char) : verbScoreOf t ≤ 100 :=
  min_le_left _ _

theorem brevityScoreOf_mem (t : List Char) :
    brevityScoreOf t = 40 ∨ brevityScoreOf t = 80 ∨ brevityScoreOf t = 100 := by
  unfold brevityScoreOf
  split_ifs <;> simp

theorem calculateStats_eq (t : List Char) (h : t ≠ []) :
    calculateStats t = some
      { wordCount := (wordsOf t).length, impactScore := impactScoreOf t,
        verbScore := verbScoreOf t, brevityScore := brevityScoreOf t } := by
  simp [calculateStats, h]

theorem sDen_eq_max (t : List Char) : sDenOf t = max (sentCountOf t) 1 := by
  unfold sDenOf
  cases h : sentCountOf t <;> simp

theorem avgOf_eq_specAvg (t : List Char) : avgOf t = specAvg t := by
  unfold avgOf specAvg
  rw [sDen_eq_max]

theorem brevity_eq_specMap (t : List Char) :
    brevityScoreOf t = brevitySpecMap (avgOf t) := rfl

/-! ### Claim C1 -/

/-- C1: the orchestrator selects the generator deterministically from
credential presence.  For a submission passing validation, the remote client
is selected if and only if a (nonempty, i.e. truthy) API key is configured;
otherwise the mock generator is selected, and with no credential the mock
generator is always the one selected, never the remote client, regardless of
the text content. -/
theorem c1_generator_selected_by_credential (apiKey text jobDesc : List Char)
    (h : ¬ text.length < 50) :
    ((handleAnalyze apiKey text jobDesc).generator = some Generator.remote ↔ apiKey ≠ []) ∧
    ((handleAnalyze apiKey text jobDesc).generator = some Generator.mock ↔ apiKey = []) ∧
    (apiKey = [] →
      (handleAnalyze apiKey text jobDesc).generator = some Generator.mock ∧
      (handleAnalyze apiKey text jobDesc).generator ≠ some Generator.remote) := by
  by_cases hk : apiKey = [] <;>
    simp [handleAnalyze, h, chooseGenerator, hk]

theorem c1_witness :
    ((handleAnalyze [] (String.toList "abcdefghij abcdefghij abcdefghij abcdefghij abcdefghij") []).generator
      = some Generator.remote ↔ ([] : List Char) ≠ []) ∧
    ((handleAnalyze [] (String.toList "abcdefghij abcdefghij abcdefghij abcdefghij abcdefghij") []).generator
      = some Generator.mock ↔ ([] : List Char) = []) ∧
    (([] : List Char) = [] →
      (handleAnalyze [] (String.toList "abcdefghij abcdefghij abcdefghij abcdefghij abcdefghij") []).generator
        = some Generator.mock ∧
      (handleAnalyze [] (String.toList "abcdefghij abcdefghij abcdefghij abcdefghij abcdefghij") []).generator
        ≠ some Generator.remote) :=
  c1_generator_selected_by_credential [] _ [] (by decide)

/-! ### Claim C3 -/

/-- C3: any text shorter than 50 characters makes `handleAnalyze` stop at the
validation alert: no local metrics are computed and no generator is invoked. -/
theorem c3_short_text_rejected (apiKey text jobDesc : List Char)
    (h : text.length < 50) :
    handleAnalyze apiKey text jobDesc =
      { validationAlert := true, stats := none, generator := none } := by
  simp [handleAnalyze, h]

theorem c3_witness :
    handleAnalyze (String.toList "key") (String.toList "Short resume.") [] =
      { validationAlert := true, stats := none, generator := none } :=
  c3_short_text_rejected _ _ [] (by decide)

/-! ### Claim C2 -/

/-- C2 (divergence witness): the remote client never rejects.  A network/API
error is caught — the promise resolves with `undefined` (`resolved none`)
instead of signalling failure to the caller — and a response that parses to a
value missing every required `AnalysisResult` field is returned as a resolved
success, with no shape validation at all. -/
theorem c2_remote_failure_swallowed :
    realGeminiAnalysis (α := Json) (fun _ => none) RemoteResponse.apiFailure =
      CallOutcome.resolved none ∧
    realGeminiAnalysis (fun _ => some (Json.jobj [])) (RemoteResponse.success []) =
      CallOutcome.resolved (some (Json.jobj [])) ∧
    requiredFieldsPresent (Json.jobj []) = false ∧
    (∀ (parse : List Char → Option Json) (r : RemoteResponse),
      realGeminiAnalysis parse r ≠ CallOutcome.rejected) := by
  refine ⟨rfl, rfl, rfl, ?_⟩
  intro parse r
  cases r with
  | apiFailure => simp [realGeminiAnalysis]
  | success body =>
    simp only [realGeminiAnalysis]
    split <;> simp

/-! ### Claim C9 -/

/-- C9: the mock generator is total and deterministic up to the job
description: it ignores the resume text and always resolves (after the fixed
1500 ms delay) with a fixed `AnalysisResult` — the summary, the two-entry
bullet points, the soft skills and the score 72 are all equal across every
pair of inputs (both text and job description may vary), and the only
input-dependent field, the missing-keyword set, is one of exactly two fixed
lists, selected solely by whether the job description is nonempty. -/
theorem c9_mock_deterministic (text text' jobDesc jobDesc' : List Char) :
    mockAIAnalysis text jobDesc = mockAIAnalysis text' jobDesc ∧
    (mockAIAnalysis text jobDesc).summary = (mockAIAnalysis text' jobDesc').summary ∧
    (mockAIAnalysis text jobDesc).bulletPoints = (mockAIAnalysis text' jobDesc').bulletPoints ∧
    (mockAIAnalysis text jobDesc).bulletPoints.length = 2 ∧
    (mockAIAnalysis text jobDesc).softSkills = (mockAIAnalysis text' jobDesc').softSkills ∧
    (mockAIAnalysis text jobDesc).score = (mockAIAnalysis text' jobDesc').score ∧
    (mockAIAnalysis text jobDesc).score = 72 ∧
    (mockAIAnalysis text jobDesc).softSkills =
      [String.toList "Communication", String.toList "Problem Solving"] ∧
    (jobDesc ≠ [] → (mockAIAnalysis text jobDesc).missingKeywords = mockKeywordsWithJob) ∧
    (jobDesc = [] → (mockAIAnalysis text jobDesc).missingKeywords = mockKeywordsNoJob) ∧
    ((mockAIAnalysis text jobDesc).missingKeywords = mockKeywordsWithJob ∨
      (mockAIAnalysis text jobDesc).missingKeywords = mockKeywordsNoJob) ∧
    mockDelayMs = 1500 := by
  refine ⟨rfl, rfl, rfl, rfl, rfl, rfl, rfl, rfl, ?_, ?_, ?_, rfl⟩ <;>
    by_cases hj : jobDesc = [] <;> simp [mockAIAnalysis, hj]

theorem c9_witness :
    (mockAIAnalysis [] (String.toList "DevOps role")).bulletPoints =
      (mockAIAnalysis (String.toList "some resume") []).bulletPoints ∧
    (mockAIAnalysis [] (String.toList "DevOps role")).summary =
      (mockAIAnalysis (String.toList "some resume") []).summary ∧
    (mockAIAnalysis [] (String.toList "DevOps role")).missingKeywords = mockKeywordsWithJob :=
  ⟨(c9_mock_deterministic [] (String.toList "some resume") (String.toList "DevOps role") []).2.2.1,
   (c9_mock_deterministic [] (String.toList "some resume") (String.toList "DevOps role") []).2.1,
   (c9_mock_deterministic [] (String.toList "some resume") (String.toList "DevOps role")
     []).2.2.2.2.2.2.2.2.1 (by decide)⟩

/-! ### Claim C4 -/

/-- C4: whenever metrics are computed (any nonempty text — the only input the
source's falsiness guard lets through), the impact and verb scores are
integers in [0,100], the brevity score is one of 40, 80, 100 exactly, and the
word count is a non-negative integer. -/
theorem c4_metric_ranges (t : List Char) (h : t ≠ []) :
    calculateStats t = some
      { wordCount := (wordsOf t).length, impactScore := impactScoreOf t,
        verbScore := verbScoreOf t, brevityScore := brevityScoreOf t } ∧
    (0 ≤ impactScoreOf t ∧ impactScoreOf t ≤ 100) ∧
    (0 ≤ verbScoreOf t ∧ verbScoreOf t ≤ 100) ∧
    (brevityScoreOf t = 40 ∨ brevityScoreOf t = 80 ∨ brevityScoreOf t = 100) ∧
    0 ≤ ((wordsOf t).length : ℤ) :=
  ⟨calculateStats_eq t h,
   ⟨impactScoreOf_nonneg t, impactScoreOf_le t⟩,
   ⟨verbScoreOf_nonneg t, verbScoreOf_le t⟩,
   brevityScoreOf_mem t, Int.ofNat_nonneg _⟩

theorem c4_witness :
    calculateStats (String.toList "Hi.") = some
      { wordCount := (wordsOf (String.toList "Hi.")).length,
        impactScore := impactScoreOf (String.toList "Hi."),
        verbScore := verbScoreOf (String.toList "Hi."),
        brevityScore := brevityScoreOf (String.toList "Hi.") } ∧
    (0 ≤ impactScoreOf (String.toList "Hi.") ∧ impactScoreOf (String.toList "Hi.") ≤ 100) ∧
    (0 ≤ verbScoreOf (String.toList "Hi.") ∧ verbScoreOf (String.toList "Hi.") ≤ 100) ∧
    (brevityScoreOf (String.toList "Hi.") = 40 ∨ brevityScoreOf (String.toList "Hi.") = 80 ∨
      brevityScoreOf (String.toList "Hi.") = 100) ∧
    0 ≤ ((wordsOf (String.toList "Hi.")).length : ℤ) :=
  c4_metric_ranges (String.toList "Hi.") (by decide)

/-! ### Claim C5 -/

/-- C5: the brevity score is exactly the spec's step function of the average
sentence length `wordCount / max(sentenceCount, 1)` — strictly above 25 gives
40, strictly above 15 gives 100, everything else (including the boundary
values 15 and 25 themselves) the stated defaults: at 25 the score is 100 and
at 15 it is 80. -/
theorem c5_brevity_step_function (t : List Char) (h : t ≠ []) :
    brevityScoreOf t = brevitySpecMap (specAvg t) ∧
    calculateStats t = some
      { wordCount := (wordsOf t).length, impactScore := impactScoreOf t,
        verbScore := verbScoreOf t, brevityScore := brevitySpecMap (specAvg t) } ∧
    (specAvg t = 25 → brevityScoreOf t = 100) ∧
    (specAvg t = 15 → brevityScoreOf t = 80) := by
  have key : brevityScoreOf t = brevitySpecMap (specAvg t) := by
    rw [brevity_eq_specMap, avgOf_eq_specAvg]
  refine ⟨key, ?_, ?_, ?_⟩
  · rw [calculateStats_eq t h, ← key]
  · intro ha
    rw [key, ha]
    norm_num [brevitySpecMap]
  · intro ha
    rw [key, ha]
    norm_num [brevitySpecMap]

theorem c5_witness :
    brevityScoreOf (String.toList "a a a a a a a a a a a a a a a.") =
      brevitySpecMap (specAvg (String.toList "a a a a a a a a a a a a a a a.")) ∧
    calculateStats (String.toList "a a a a a a a a a a a a a a a.") = some
      { wordCount := (wordsOf (String.toList "a a a a a a a a a a a a a a a.")).length,
        impactScore := impactScoreOf (String.toList "a a a a a a a a a a a a a a a."),
        verbScore := verbScoreOf (String.toList "a a a a a a a a a a a a a a a."),
        brevityScore := brevitySpecMap (specAvg (String.toList "a a a a a a a a a a a a a a a.")) } ∧
    (specAvg (String.toList "a a a a a a a a a a a a a a a.") = 25 →
      brevityScoreOf (String.toList "a a a a a a a a a a a a a a a.") = 100) ∧
    (specAvg (String.toList "a a a a a a a a a a a a a a a.") = 15 →
      brevityScoreOf (String.toList "a a a a a a a a a a a a a a a.") = 80) :=
  c5_brevity_step_function (String.toList "a a a a a a a a a a a a a a a.") (by decide)

/-! ### Claim C6 -/

/-- C6: when sentence tokenization yields zero sentences, the denominator of
the impact-score and average-sentence-length computations is floored at 1
(the JS `|| 1`), there is no division by zero, and the scores remain
well-defined and inside their stated ranges. -/
theorem c6_zero_sentences_denominator (t : List Char) (h : t ≠ [])
    (h0 : sentCountOf t = 0) :
    sDenOf t = 1 ∧
    impactScoreOf t = min 100 (jsRound ((countQuant t : ℚ) / 1 * 100 * 1.5)) ∧
    avgOf t = ((wordsOf t).length : ℚ) / 1 ∧
    calculateStats t = some
      { wordCount := (wordsOf t).length, impactScore := impactScoreOf t,
        verbScore := verbScoreOf t, brevityScore := brevityScoreOf t } ∧
    (0 ≤ impactScoreOf t ∧ impactScoreOf t ≤ 100) ∧
    (brevityScoreOf t = 40 ∨ brevityScoreOf t = 80 ∨ brevityScoreOf t = 100) := by
  have hd : sDenOf t = 1 := by simp [sDenOf, h0]
  refine ⟨hd, ?_, ?_, calculateStats_eq t h,
    ⟨impactScoreOf_nonneg t, impactScoreOf_le t⟩, brevityScoreOf_mem t⟩
  · unfold impactScoreOf
    rw [hd]
    norm_num
  · unfold avgOf
    rw [hd]
    norm_num

theorem c6_witness :
    sDenOf (String.toList "...") = 1 ∧
    impactScoreOf (String.toList "...") =
      min 100 (jsRound ((countQuant (String.toList "...") : ℚ) / 1 * 100 * 1.5)) ∧
    avgOf (String.toList "...") = ((wordsOf (String.toList "...")).length : ℚ) / 1 ∧
    calculateStats (String.toList "...") = some
      { wordCount := (wordsOf (String.toList "...")).length,
        impactScore := impactScoreOf (String.toList "..."),
        verbScore := verbScoreOf (String.toList "..."),
        brevityScore := brevityScoreOf (String.toList "...") } ∧
    (0 ≤ impactScoreOf (String.toList "...") ∧ impactScoreOf (String.toList "...") ≤ 100) ∧
    (brevityScoreOf (String.toList "...") = 40 ∨ brevityScoreOf (String.toList "...") = 80 ∨
      brevityScoreOf (String.toList "...") = 100) :=
  c6_zero_sentences_denominator (String.toList "...") (by decide) (by decide)

/-! ### Claim C7 -/

theorem contains_eq_decide_mem (l : List (List Char)) (a : List Char) :
    l.contains a = decide (a ∈ l) := by
  induction l with
  | nil => simp
  | cons x xs ih => simp

theorem verbCounts_foldl_general (ws : List (List Char)) :
    ∀ p : Nat × Nat,
      ws.foldl
        (fun acc w =>
          (acc.1 + (if strongVerbs.contains (lowerTok w) then 1 else 0),
           acc.2 + (if weakVerbs.contains (lowerTok w) then 1 else 0))) p =
      (p.1 + ws.countP (fun w => decide (lowerTok w ∈ strongVerbs)),
       p.2 + ws.countP (fun w => decide (lowerTok w ∈ weakVerbs))) := by
  induction ws with
  | nil => intro p; simp
  | cons w ws ih =>
    intro p
    rw [List.foldl_cons, ih, List.countP_cons, List.countP_cons,
      contains_eq_decide_mem, contains_eq_decide_mem]
    simp only [Prod.mk.injEq]
    constructor <;> dsimp only <;> split <;> omega

theorem verbCounts_eq_countP (ws : List (List Char)) :
    verbCounts ws =
      (ws.countP (fun w => decide (lowerTok w ∈ strongVerbs)),
       ws.countP (fun w => decide (lowerTok w ∈ weakVerbs))) := by
  unfold verbCounts
  rw [verbCounts_foldl_general ws (0, 0)]
  simp

/-- C7: verb classification is case-insensitive and whole-token: the strong
(resp. weak) counter counts exactly the word tokens whose lowercasing is an
exact member of the fixed strong-verb (resp. weak-verb) list.  A token that
merely contains a listed verb as a substring is not counted: "Networked"
contains "worked" yet contributes to neither counter. -/
theorem c7_verb_whole_token_matching (t : List Char) :
    (verbCounts (wordsOf t)).1 =
      (wordsOf t).countP (fun w => decide (lowerTok w ∈ strongVerbs)) ∧
    (verbCounts (wordsOf t)).2 =
      (wordsOf t).countP (fun w => decide (lowerTok w ∈ weakVerbs)) ∧
    verbCounts (wordsOf (String.toList "Networked")) = (0, 0) ∧
    lowerTok (String.toList "Networked") = String.toList "networked" ∧
    (String.toList "worked") <:+ (String.toList "networked") ∧
    (String.toList "worked") ∈ weakVerbs ∧
    (String.toList "networked") ∉ weakVerbs ∧
    verbCounts (wordsOf (String.toList "Helped WORKED")) = (0, 2) := by
  refine ⟨?_, ?_, by decide, by decide, ⟨[Char.ofNat 110, Char.ofNat 101, Char.ofNat 116], by decide⟩, by decide, by decide, by decide⟩
  · rw [verbCounts_eq_countP]
  · rw [verbCounts_eq_countP]

/-! ### Claim C10 -/

/-- C10: the sentence tokenizer discards only zero-length segments, so a
whitespace-only segment (for instance the one produced by a text ending in
a period plus a space) is counted as a sentence; concretely, appending a
space after the final period of "Grew sales 20%." raises the sentence count
from 1 to 2, keeps the single whitespace segment among the sentences, and
thereby lowers both the impact ratio and the average sentence length that
feeds the brevity score. -/
theorem c10_whitespace_segments_counted :
    (∀ t seg : List Char,
      seg ∈ splitRuns isSentencePunct t → 0 < seg.length → seg ∈ sentencesOf t) ∧
    sentencesOf (String.toList "Grew sales 20%. ") =
      [String.toList "Grew sales 20%", [' ']] ∧
    sentCountOf (String.toList "Grew sales 20%. ") =
      sentCountOf (String.toList "Grew sales 20%.") + 1 ∧
    (countQuant (String.toList "Grew sales 20%. ") : ℚ) /
        (sDenOf (String.toList "Grew sales 20%. ") : ℚ) <
      (countQuant (String.toList "Grew sales 20%.") : ℚ) /
        (sDenOf (String.toList "Grew sales 20%.") : ℚ) ∧
    avgOf (String.toList "Grew sales 20%. ") < avgOf (String.toList "Grew sales 20%.") := by
  refine ⟨?_, by decide, by decide, ?_, ?_⟩
  · intro t seg h1 h2
    simp only [sentencesOf, List.mem_filter]
    exact ⟨h1, by simpa using h2⟩
  · have e1 : countQuant (String.toList "Grew sales 20%. ") = 1 := by decide
    have e2 : sDenOf (String.toList "Grew sales 20%. ") = 2 := by decide
    have e3 : countQuant (String.toList "Grew sales 20%.") = 1 := by decide
    have e4 : sDenOf (String.toList "Grew sales 20%.") = 1 := by decide
    rw [e1, e2, e3, e4]
    norm_num
  · have e5 : (wordsOf (String.toList "Grew sales 20%. ")).length = 3 := by decide
    have e6 : (wordsOf (String.toList "Grew sales 20%.")).length = 3 := by decide
    have e2 : sDenOf (String.toList "Grew sales 20%. ") = 2 := by decide
    have e4 : sDenOf (String.toList "Grew sales 20%.") = 1 := by decide
    unfold avgOf
    rw [e5, e6, e2, e4]
    norm_num

theorem c10_witness : (String.toList "b") ∈ sentencesOf (String.toList "b.") :=
  c10_whitespace_segments_counted.1 (String.toList "b.") (String.toList "b")
    (by decide) (by decide)

/-! ### Fence stripping: fuel irrelevance and step lemmas -/

theorem replF_fuel : ∀ (n m : Nat) (s : List Char),
    s.length ≤ m → m ≤ n → replF m s = replF s.length s := by
  intro n
  induction n with
  | zero =>
    intro m s hm hn
    have hm0 : m = 0 := Nat.le_zero.mp hn
    subst hm0
    have : s = [] := List.length_eq_zero.mp (Nat.le_zero.mp hm)
    subst this
    rfl
  | succ n ih =>
    intro m s hm hn
    cases m with
    | zero =>
      have : s = [] := List.length_eq_zero.mp (Nat.le_zero.mp hm)
      subst this
      rfl
    | succ m' =>
      cases s with
      | nil => rfl
      | cons c cs =>
        have hcs : cs.length ≤ m' := by simpa using hm
        have hm'n : m' ≤ n := Nat.succ_le_succ_iff.mp hn
        have hcsn : cs.length ≤ n := le_trans hcs hm'n
        simp only [replF, List.length_cons]
        split
        · have hlen : ((c :: cs).drop 7).length ≤ cs.length := by
            simp [List.length_drop]
          rw [ih m' _ (le_trans hlen hcs) hm'n, ih cs.length _ hlen hcsn]
        · split
          · have hlen : ((c :: cs).drop 3).length ≤ cs.length := by
              simp [List.length_drop]
            rw [ih m' _ (le_trans hlen hcs) hm'n, ih cs.length _ hlen hcsn]
          · rw [ih m' cs hcs hm'n]

theorem replaceFences_cons_step (c : Char) (cs : List Char)
    (h1 : fenceJsonM.isPrefixOf (c :: cs) = false)
    (h2 : fenceM.isPrefixOf (c :: cs) = false) :
    replaceFences (c :: cs) = c :: replaceFences cs := by
  unfold replaceFences
  simp only [List.length_cons, replF, h1, h2]
  simp

theorem replaceFences_json_step (s : List Char)
    (h : fenceJsonM.isPrefixOf s = true) :
    replaceFences s = replaceFences (s.drop 7) := by
  cases s with
  | nil => simp [fenceJsonM, List.isPrefixOf] at h
  | cons c cs =>
    unfold replaceFences
    simp only [List.length_cons, replF, h, if_true]
    have hlen : ((c :: cs).drop 7).length ≤ cs.length := by
      simp [List.length_drop]
    exact replF_fuel cs.length cs.length _ hlen le_rfl

theorem replaceFences_fence_step (s : List Char)
    (h1 : fenceJsonM.isPrefixOf s = false)
    (h2 : fenceM.isPrefixOf s = true) :
    replaceFences s = replaceFences (s.drop 3) := by
  cases s with
  | nil => simp [fenceM, List.isPrefixOf] at h2
  | cons c cs =>
    unfold replaceFences
    simp only [List.length_cons, replF, h1, h2, Bool.false_eq_true, if_false, if_true]
    have hlen : ((c :: cs).drop 3).length ≤ cs.length := by
      simp [List.length_drop]
    exact replF_fuel cs.length cs.length _ hlen le_rfl

theorem fence_not_prefix_one (c : Char) (h : c ≠ btk) (l : List Char) :
    fenceM.isPrefixOf (c :: l) = false := by
  simp only [fenceM, List.isPrefixOf, Bool.and_eq_false_iff]
  left
  rw [beq_eq_false_iff_ne]
  exact fun hh => h hh.symm

theorem fence_not_prefix_two (c2 : Char) (h : c2 ≠ btk) (c1 : Char) (l : List Char) :
    fenceM.isPrefixOf (c1 :: c2 :: l) = false := by
  simp only [fenceM, List.isPrefixOf, Bool.and_eq_false_iff]
  right
  left
  rw [beq_eq_false_iff_ne]
  exact fun hh => h hh.symm

theorem fence_not_prefix_three (c3 : Char) (h : c3 ≠ btk) (c1 c2 : Char) (l : List Char) :
    fenceM.isPrefixOf (c1 :: c2 :: c3 :: l) = false := by
  simp only [fenceM, List.isPrefixOf, Bool.and_eq_false_iff]
  right
  right
  left
  rw [beq_eq_false_iff_ne]
  exact fun hh => h hh.symm

theorem fenceJson_prefix_imp (s : List Char)
    (h : fenceJsonM.isPrefixOf s = true) : fenceM.isPrefixOf s = true := by
  rcases s with _ | ⟨a, _ | ⟨b, _ | ⟨c, l⟩⟩⟩ <;>
    simp only [fenceM, fenceJsonM, List.isPrefixOf, Bool.and_eq_true] at h ⊢ <;>
    tauto

theorem fenceJsonPrefixFalse (s : List Char)
    (h : fenceM.isPrefixOf s = false) : fenceJsonM.isPrefixOf s = false := by
  cases hj : fenceJsonM.isPrefixOf s with
  | false => rfl
  | true => rw [fenceJson_prefix_imp s hj] at h; exact Bool.noConfusion h

theorem containsFence_elim (c : Char) (cs : List Char)
    (h : containsFence (c :: cs) = false) :
    fenceM.isPrefixOf (c :: cs) = false ∧ containsFence cs = false := by
  simpa [containsFence, Bool.or_eq_false_iff] using h

theorem fence_prefix_found (c : Char) (cs : List Char)
    (h : fenceM.isPrefixOf (c :: cs) = true) : containsFence (c :: cs) = true := by
  simp [containsFence, h]

theorem replaceFences_id_of_no_fence :
    ∀ s : List Char, containsFence s = false → replaceFences s = s := by
  intro s
  induction s with
  | nil => intro _; rfl
  | cons c cs ih =>
    intro h
    obtain ⟨h1, h2⟩ := containsFence_elim c cs h
    rw [replaceFences_cons_step c cs (fenceJsonPrefixFalse _ h1) h1, ih h2]

theorem replaceFences_append_fence_aux :
    ∀ (n : Nat) (s : List Char), s.length ≤ n → containsFence s = false →
      replaceFences (s ++ fenceM) = s := by
  intro n
  induction n with
  | zero =>
    intro s hl _
    have : s = [] := List.length_eq_zero.mp (Nat.le_zero.mp hl)
    subst this
    decide
  | succ n ih =>
    intro s hl h
    cases s with
    | nil => decide
    | cons c cs =>
      by_cases hc : c = btk
      · subst hc
        cases cs with
        | nil => decide
        | cons c2 cs2 =>
          by_cases hc2 : c2 = btk
          · subst hc2
            cases cs2 with
            | nil => decide
            | cons c3 cs3 =>
              by_cases hc3 : c3 = btk
              · subst hc3
                have hfp : containsFence (btk :: btk :: btk :: cs3) = true :=
                  fence_prefix_found btk (btk :: btk :: cs3)
                    (by simp [fenceM, List.isPrefixOf])
                rw [hfp] at h
                exact Bool.noConfusion h
              · obtain ⟨_, h2'⟩ := containsFence_elim _ _ h
                obtain ⟨_, h3'⟩ := containsFence_elim _ _ h2'
                have hf1 : fenceM.isPrefixOf (btk :: btk :: c3 :: (cs3 ++ fenceM)) = false :=
                  fence_not_prefix_three c3 hc3 _ _ _
                have hf2 : fenceM.isPrefixOf (btk :: c3 :: (cs3 ++ fenceM)) = false :=
                  fence_not_prefix_two c3 hc3 _ _
                simp only [List.cons_append]
                rw [replaceFences_cons_step _ _ (fenceJsonPrefixFalse _ hf1) hf1]
                rw [replaceFences_cons_step _ _ (fenceJsonPrefixFalse _ hf2) hf2]
                rw [← List.cons_append, ih (c3 :: cs3) (by simp at hl ⊢; omega) h3']
          · obtain ⟨_, h2'⟩ := containsFence_elim _ _ h
            have hf : fenceM.isPrefixOf (btk :: c2 :: (cs2 ++ fenceM)) = false :=
              fence_not_prefix_two c2 hc2 _ _
            simp only [List.cons_append]
            rw [replaceFences_cons_step _ _ (fenceJsonPrefixFalse _ hf) hf]
            rw [← List.cons_append, ih (c2 :: cs2) (by simp at hl ⊢; omega) h2']
      · obtain ⟨_, h2'⟩ := containsFence_elim _ _ h
        have hf : fenceM.isPrefixOf (c :: (cs ++ fenceM)) = false :=
          fence_not_prefix_one c hc _
        simp only [List.cons_append]
        rw [replaceFences_cons_step _ _ (fenceJsonPrefixFalse _ hf) hf]
        rw [ih cs (by simp at hl ⊢; omega) h2']

theorem replaceFences_append_fence (s : List Char) (h : containsFence s = false) :
    replaceFences (s ++ fenceM) = s :=
  replaceFences_append_fence_aux s.length s le_rfl h

theorem containsFence_cons_of_ne (c : Char) (h : c ≠ btk) (s : List Char) :
    containsFence (c :: s) = containsFence s := by
  simp [containsFence, fence_not_prefix_one c h]

theorem fence_isPrefixOf_append_one (c : Char) (h : c ≠ btk) (a : Char) (s : List Char) :
    fenceM.isPrefixOf (a :: (s ++ [c])) = fenceM.isPrefixOf (a :: s) := by
  have hbc : (btk == c) = false := by
    rw [beq_eq_false_iff_ne]
    exact fun hh => h hh.symm
  rcases s with _ | ⟨d, _ | ⟨e, s2⟩⟩ <;>
    simp [fenceM, List.isPrefixOf, hbc]

theorem containsFence_append_one (c : Char) (h : c ≠ btk) :
    ∀ s : List Char, containsFence (s ++ [c]) = containsFence s := by
  intro s
  induction s with
  | nil =>
    have hbc : (btk == c) = false := by
      rw [beq_eq_false_iff_ne]
      exact fun hh => h hh.symm
    simp [containsFence, fenceM, List.isPrefixOf, hbc]
  | cons a s ih =>
    rw [List.cons_append]
    rw [show containsFence (a :: (s ++ [c])) =
      (fenceM.isPrefixOf (a :: (s ++ [c])) || containsFence (s ++ [c])) from rfl]
    rw [show containsFence (a :: s) =
      (fenceM.isPrefixOf (a :: s) || containsFence s) from rfl]
    rw [fence_isPrefixOf_append_one c h a s, ih]

theorem jsTrim_cons_ws (c : Char) (h : isJsSpace c = true) (s : List Char) :
    jsTrim (c :: s) = jsTrim s := by
  simp [jsTrim, List.dropWhile_cons, h]

theorem jsTrim_append_ws (c : Char) (h : isJsSpace c = true) (s : List Char) :
    jsTrim (s ++ [c]) = jsTrim s := by
  simp only [jsTrim, List.dropWhile_append]
  by_cases he : (s.dropWhile isJsSpace).isEmpty
  · have hnil : List.dropWhile isJsSpace s = [] := List.isEmpty_iff.mp he
    rw [if_pos he, hnil]
    simp [List.dropWhile_cons, h]
  · simp only [he, if_false, Bool.false_eq_true]
    rw [List.reverse_append]
    simp [List.dropWhile_cons, h]

theorem fenceJson_prefix_self (x : List Char) :
    fenceJsonM.isPrefixOf (fenceJsonM ++ x) = true := by
  simp [fenceJsonM, List.isPrefixOf]

theorem replaceFences_wrapFence (s : List Char) (h : containsFence s = false) :
    replaceFences (wrapFence s) = s := by
  unfold wrapFence
  rw [List.append_assoc]
  rw [replaceFences_json_step _ (fenceJson_prefix_self (s ++ fenceM))]
  rw [show (fenceJsonM ++ (s ++ fenceM)).drop 7 = s ++ fenceM from
    List.drop_left fenceJsonM (s ++ fenceM)]
  exact replaceFences_append_fence s h

theorem replaceFences_wrapFenceNl (s : List Char) (h : containsFence s = false) :
    replaceFences (wrapFenceNl s) = '\n' :: (s ++ ['\n']) := by
  have hnb : ('\n' : Char) ≠ btk := by decide
  have hs' : containsFence ('\n' :: (s ++ ['\n'])) = false := by
    rw [containsFence_cons_of_ne _ hnb, containsFence_append_one _ hnb, h]
  have hshape : wrapFenceNl s = fenceJsonM ++ (('\n' :: (s ++ ['\n'])) ++ fenceM) := by
    simp [wrapFenceNl]
  rw [hshape]
  rw [replaceFences_json_step _ (fenceJson_prefix_self _)]
  rw [show (fenceJsonM ++ (('\n' :: (s ++ ['\n'])) ++ fenceM)).drop 7 =
    ('\n' :: (s ++ ['\n'])) ++ fenceM from List.drop_left fenceJsonM _]
  exact replaceFences_append_fence _ hs'

/-! ### Claim C8 -/

/-- C8: code-fence stripping is a semantic no-op for the remote client.  For
every payload containing no fence marker, running the payload wrapped in
leading/trailing fence markers (tightly, or on their own lines) through the
client's cleanup step yields exactly the string the bare payload yields, so
any parse of the two cleaned strings agrees. -/
theorem c8_fence_strip_noop (s : List Char) (h : containsFence s = false) :
    cleanResponse (wrapFence s) = cleanResponse s ∧
    cleanResponse (wrapFenceNl s) = cleanResponse s ∧
    ∀ (α : Type) (parse : List Char → α),
      parse (cleanResponse (wrapFence s)) = parse (cleanResponse s) ∧
      parse (cleanResponse (wrapFenceNl s)) = parse (cleanResponse s) := by
  have h1 : cleanResponse (wrapFence s) = cleanResponse s := by
    unfold cleanResponse
    rw [replaceFences_wrapFence s h, replaceFences_id_of_no_fence s h]
  have h2 : cleanResponse (wrapFenceNl s) = cleanResponse s := by
    unfold cleanResponse
    rw [replaceFences_wrapFenceNl s h, replaceFences_id_of_no_fence s h]
    rw [jsTrim_cons_ws '\n' (by decide), jsTrim_append_ws '\n' (by decide)]
  exact ⟨h1, h2, fun α parse => ⟨congrArg parse h1, congrArg parse h2⟩⟩

theorem c8_witness :
    cleanResponse (wrapFence (String.toList "[72, 11]")) =
      cleanResponse (String.toList "[72, 11]") ∧
    cleanResponse (wrapFenceNl (String.toList "[72, 11]")) =
      cleanResponse (String.toList "[72, 11]") :=
  ⟨(c8_fence_strip_noop (String.toList "[72, 11]") (by decide)).1,
   (c8_fence_strip_noop (String.toList "[72, 11]") (by decide)).2.1⟩
